import Mathlib

/-!
Verification of the junction multisig wallet coordinator (junction.py).

The Python source is shallowly embedded: the `MultisigWallet` class becomes a
structure, every method becomes a function that takes the wallet state and
returns an explicit result, the new wallet state, the list of wallet snapshots
written to disk (calls to `save`), and the list of `importmulti` requests sent
to the external node.  All external RPC behaviour (Bitcoin Core) is abstracted
into a `Node` record of response functions; calls that can raise are modelled
with `Except`.  Python integers are `Int`; Python string comparison is by code
point.
-/

/-- Equality of `Except` values is decidable when it is on both sides;
used to evaluate operations on concrete fixtures. -/
instance {ε α : Type} [DecidableEq ε] [DecidableEq α] : DecidableEq (Except ε α) :=
  fun x y =>
    match x, y with
    | .ok a, .ok b =>
      if h : a = b then .isTrue (by rw [h])
      else .isFalse (by intro hc; cases hc; exact h rfl)
    | .ok _, .error _ => .isFalse (by intro hc; cases hc)
    | .error _, .ok _ => .isFalse (by intro hc; cases hc)
    | .error e, .error f =>
      if h : e = f then .isTrue (by rw [h])
      else .isFalse (by intro hc; cases hc; exact h rfl)

/-- Errors a wallet operation can raise.  `junctionError` is the domain
validation error class of the source (`JunctionError`); the others model the
builtin Python exceptions the code can hit. -/
inductive JErr where
  | junctionError (msg : String)
  | assertionError (msg : String)
  | attributeError
  | indexError
  | recursionError
  | rpcError (msg : String)
deriving Repr, DecidableEq

/-- A co-signer record, the dictionary appended by `add_signer`. -/
structure Signer where
  name : String
  fingerprint : String
  xpub : String
  derivation_path : String
deriving Repr, DecidableEq

/-- One input of a partially signed transaction; only the number of partial
signatures matters to the code (`len(psbt.inputs[0].partial_sigs)`), so the
signature map is kept as a list of entries. -/
structure PSBTInput where
  psigs : List String
deriving Repr, DecidableEq

/-- The in-flight partially signed transaction.  `hexRep` is the value
`psbt.serialize()` returns; `inputs` the parsed input list. -/
structure PSBT where
  hexRep : String
  inputs : List PSBTInput
deriving Repr, DecidableEq

/-- The wallet state: the fields assigned in `MultisigWallet.__init__`. -/
structure MultisigWallet where
  name : String
  m : Int
  n : Int
  signers : List Signer
  psbt : Option PSBT
  address_index : Int
  export_index : Int
deriving Repr, DecidableEq

/-- The persisted wallet record, the dictionary built by `to_dict`. -/
structure WalletData where
  name : String
  m : Int
  n : Int
  signers : List Signer
  psbt : String
  address_index : Int
  export_index : Int
deriving Repr, DecidableEq

/-- `ADDRESS_CHUNK = 100`. -/
def ADDRESS_CHUNK : Int := 100

namespace MultisigWallet

/-- `ready`: all signers present (`len(self.signers) == self.n`). -/
def ready (w : MultisigWallet) : Bool :=
  (w.signers.length : Int) == w.n

/-- `to_dict`: the full snapshot written by `save`. -/
def to_dict (w : MultisigWallet) : WalletData :=
  { name := w.name
    m := w.m
    n := w.n
    signers := w.signers
    psbt := match w.psbt with
      | some p => p.hexRep
      | none => ""
    address_index := w.address_index
    export_index := w.export_index }

end MultisigWallet

/-- Strict lexicographic comparison of character lists by code point,
the order Python uses to compare strings. -/
def lexLt : List Char → List Char → Bool
  | [], [] => false
  | [], _ :: _ => true
  | _ :: _, [] => false
  | a :: as, b :: bs =>
    if a.toNat < b.toNat then true
    else if b.toNat < a.toNat then false
    else lexLt as bs

/-- Python string `<`. -/
def pyStrLt (a b : String) : Bool := lexLt a.data b.data

/-- Stable insertion of one element into an already sorted list: the new
element is placed after every element not strictly greater than it. -/
def insertSorted (a : String) : List String → List String
  | [] => [a]
  | b :: bs => if pyStrLt a b then a :: b :: bs else b :: insertSorted a bs

/-- Python builtin `sorted` on a list of strings: a stable sort by code-point
lexicographic order (every stable sort returns the same list, so insertion
sort reproduces it exactly). -/
def pysorted : List String → List String
  | [] => []
  | a :: as => insertSorted a (pysorted as)

/-- Metadata the node reports for an address (`getaddressinfo` result fields
the code reads). -/
structure AddressInfo where
  iswatchonly : Bool
  pubkeys : List String
deriving Repr, DecidableEq

/-- The argument object the code passes to `importmulti` (junction.py lines
213 to 223): descriptor, backdated timestamp, index range, and the three
flags. -/
structure ImportRequest where
  desc : String
  timestamp : Int
  range : Int × Int
  watchonly : Bool
  keypool : Bool
  internal : Bool
deriving Repr, DecidableEq

/-- The watch-only section of a `getbalances` response, when present. -/
structure WatchonlyBalances where
  untrusted_pending : Rat
  trusted : Rat
deriving Repr, DecidableEq

/-- A `getbalances` response: the code only asks whether the key
`watchonly` is present and reads its two totals. -/
structure BalancesResp where
  watchonly : Option WatchonlyBalances
deriving Repr, DecidableEq

/-- One unspent output as returned by `listunspent`: the code reads its
`confirmations` count and its `amount`. -/
structure Utxo where
  confirmations : Int
  amount : Rat
deriving Repr, DecidableEq

/-- The external Bitcoin Core node (and the local hwilib PSBT parser), as a
record of response functions.  Each RPC that can fail returns `Except`. -/
structure Node where
  listwallets : Except JErr (List String)
  loadwallet : String → Except JErr Unit
  createwallet : String → Bool → Except JErr Unit
  getdescriptorinfo : String → Except JErr String
  deriveaddresses : String → Int × Int → Except JErr (List String)
  getaddressinfo : String → Except JErr AddressInfo
  importmulti : ImportRequest → Except JErr Unit
  walletcreatefundedpsbt : String → Int → String → Except JErr String
  deserializePsbt : String → Except JErr PSBT
  getbalances : Except JErr BalancesResp
  listunspent : Int → Int → List String → Bool → Except JErr (List Utxo)

/-- Result of one wallet operation: the returned value or raised exception,
the wallet state after the call (Python mutates in place, so state changes
survive exceptions), the snapshots written by `save` in order, and the
`importmulti` requests issued in order. -/
structure OpResult (α : Type) where
  result : Except JErr α
  wallet : MultisigWallet
  saves : List WalletData
  imports : List ImportRequest
deriving Repr

namespace MultisigWallet

/-- The fixed hardened derivation path segment `path_prefix = "/44h/1h/0h"`
from `descriptor` (the hardened marker is the letter h in the source). -/
def pathHardened : String := "/44h/1h/0h"

/-- The fixed receive-branch segment `path_suffix = "/0/*"`. -/
def pathReceive : String := "/0/*"

/-- The raw descriptor string `descriptor` builds before asking the node for
a checksum: one bracketed origin plus xpub per signer, joined with commas,
wrapped in sh(multi(m, ...)). -/
def rawDescriptor (w : MultisigWallet) : String :=
  let xpubs := w.signers.map
    (fun s => "[" ++ s.fingerprint ++ pathHardened ++ "]" ++ s.xpub ++ pathReceive)
  "sh(multi(" ++ toString w.m ++ "," ++ String.intercalate "," xpubs ++ "))"

/-- `descriptor`: builds the raw descriptor from the current signer list and
returns the checksummed descriptor from `getdescriptorinfo`.  Note the source
performs no readiness check here. -/
def descriptor (node : Node) (w : MultisigWallet) : Except JErr String :=
  node.getdescriptorinfo (rawDescriptor w)

/-- The `importmulti` argument built in `export_watchonly`: the checksummed
descriptor, a timestamp backdated 24 hours, the range pair
`[export_index, export_index + ADDRESS_CHUNK]`, watch-only, no keypool,
non-change. -/
def importRequest (desc : String) (now : Int) (export_index : Int) : ImportRequest :=
  { desc := desc
    timestamp := now - 60 * 60 * 24
    range := (export_index, export_index + ADDRESS_CHUNK)
    watchonly := true
    keypool := false
    internal := false }

/-- `export_watchonly`: computes `new_export_index = export_index +
ADDRESS_CHUNK`, imports the descriptor over the range
`[export_index, new_export_index]`, then advances `export_index` and saves. -/
def export_watchonly (node : Node) (now : Int) (w : MultisigWallet) : OpResult Unit :=
  let new_export_index := w.export_index + ADDRESS_CHUNK
  match descriptor node w with
  | .error e => ⟨.error e, w, [], []⟩
  | .ok desc =>
    let req := importRequest desc now w.export_index
    match node.importmulti req with
    | .error e => ⟨.error e, w, [], [req]⟩
    | .ok _ =>
      let w' := { w with export_index := new_export_index }
      ⟨.ok (), w', [w'.to_dict], [req]⟩

/-- The readiness guard failure message of `address`. -/
def notReadyMsg (w : MultisigWallet) : String :=
  toString w.n ++ " signers required, " ++ toString w.signers.length ++ " registered"

/-- The export trigger at the top of `address` (junction.py lines 162 to
163): run an export cycle when `address_index > export_index`, otherwise do
nothing. -/
def allocationExportStep (node : Node) (now : Int) (w : MultisigWallet) : OpResult Unit :=
  if w.address_index > w.export_index then export_watchonly node now w
  else ⟨.ok (), w, [], []⟩

/-- `address`: derive the next BIP67 compliant receiving address.  Requires
ready; runs an export cycle first when `address_index > export_index`;
derives the address at `address_index` (first element of the two-index range
request), increments `address_index`, asserts the address is watch-only, and
if the embedded pubkeys are not in sorted order recurses (the Python method
calls itself; `fuel` bounds that recursion, running out models Python
exhausting its recursion limit).  Only the innermost successful call saves. -/
def addressRec (node : Node) (now : Int) : Nat → MultisigWallet → OpResult String
  | 0, w => ⟨.error .recursionError, w, [], []⟩
  | fuel + 1, w =>
    if !w.ready then
      ⟨.error (.junctionError (notReadyMsg w)), w, [], []⟩
    else
      let pre : OpResult Unit := allocationExportStep node now w
      match pre.result with
      | .error e => ⟨.error e, pre.wallet, pre.saves, pre.imports⟩
      | .ok _ =>
        let w1 := pre.wallet
        match descriptor node w1 with
        | .error e => ⟨.error e, w1, pre.saves, pre.imports⟩
        | .ok desc =>
          match node.deriveaddresses desc (w1.address_index, w1.address_index + 1) with
          | .error e => ⟨.error e, w1, pre.saves, pre.imports⟩
          | .ok addrs =>
            match addrs.head? with
            | none => ⟨.error .indexError, w1, pre.saves, pre.imports⟩
            | some addr =>
              let w2 := { w1 with address_index := w1.address_index + 1 }
              match node.getaddressinfo addr with
              | .error e => ⟨.error e, w2, pre.saves, pre.imports⟩
              | .ok ai =>
                if ai.iswatchonly != true then
                  ⟨.error (.assertionError "Bitcoin Core gave us non-watch-only address"),
                    w2, pre.saves, pre.imports⟩
                else if ai.pubkeys ≠ pysorted ai.pubkeys then
                  let r := addressRec node now fuel w2
                  ⟨r.result, r.wallet, pre.saves ++ r.saves, pre.imports ++ r.imports⟩
                else
                  ⟨.ok addr, w2, pre.saves ++ [w2.to_dict], pre.imports⟩

/-- `add_signer`: rejects when already ready or on a duplicate name or
fingerprint; otherwise appends the signer, runs the first export cycle when
this completes the quorum, and saves. -/
def add_signer (node : Node) (now : Int) (w : MultisigWallet)
    (name fingerprint xpub derivation_path : String) : OpResult Unit :=
  if w.ready then
    ⟨.error (.junctionError ("Already have " ++ toString w.signers.length ++ " of "
      ++ toString w.n ++ " required signers")), w, [], []⟩
  else if name ∈ w.signers.map Signer.name then
    ⟨.error (.junctionError ("Name \"" ++ name ++ "\" already taken")), w, [], []⟩
  else if fingerprint ∈ w.signers.map Signer.fingerprint then
    ⟨.error (.junctionError ("Fingerprint \"" ++ fingerprint ++ "\" already used")), w, [], []⟩
  else
    let w1 := { w with signers := w.signers ++ [⟨name, fingerprint, xpub, derivation_path⟩] }
    if w1.ready then
      let r := export_watchonly node now w1
      match r.result with
      | .error e => ⟨.error e, r.wallet, r.saves, r.imports⟩
      | .ok _ => ⟨.ok (), r.wallet, r.saves ++ [r.wallet.to_dict], r.imports⟩
    else
      ⟨.ok (), w1, [w1.to_dict], []⟩

/-- `ensure_watchonly`: make sure the watch-only Bitcoin Core wallet named
after this wallet is loaded, loading or creating it when missing; wraps a
failing `listwallets` and a failing load-then-create into `JunctionError`. -/
def ensure_watchonly (node : Node) (w : MultisigWallet) : Except JErr Unit :=
  match node.listwallets with
  | .error e => .error (.junctionError (reprStr e))
  | .ok bitcoin_wallets =>
    if w.name ∈ bitcoin_wallets then .ok ()
    else
      match node.loadwallet w.name with
      | .ok _ => .ok ()
      | .error _ =>
        match node.createwallet w.name true with
        | .ok _ => .ok ()
        | .error _ => .error (.junctionError "Couldn't establish watch-only Bitcoin Core wallet")

/-- The error message of `create` when m exceeds n. -/
def msgMGtN (m n : Int) : String :=
  "\"m\" (" ++ toString m ++ ") must be no larger than \"n\" (" ++ toString n ++ ")"

/-- The error message of `create` when m is below 1. -/
def msgMLt1 (m : Int) : String :=
  "\"m\" (" ++ toString m ++ ") must be larger than 0"

/-- The error message of `create` when n exceeds 5. -/
def msgNGt5 (n : Int) : String :=
  "\"n\" (" ++ toString n ++ ") cannot exceed 5"

/-- `create`: sanity-checks the bounds in source order (m > n, m < 1,
n > 5), builds the fresh instance, refuses to overwrite an existing wallet
file (`fileExists` stands for the `os.path.exists` probe), bootstraps the
watch-only Core wallet, and only then saves.  The pair returned is the
raised-or-returned result together with the snapshots written. -/
def create (node : Node) (name : String) (m n : Int) (fileExists : Bool) :
    Except JErr MultisigWallet × List WalletData :=
  if m > n then (.error (.junctionError (msgMGtN m n)), [])
  else if m < 1 then (.error (.junctionError (msgMLt1 m)), [])
  else if n > 5 then (.error (.junctionError (msgNGt5 n)), [])
  else
    let w : MultisigWallet :=
      { name := name, m := m, n := n, signers := [], psbt := none
        address_index := 0, export_index := 0 }
    if fileExists then
      (.error (.junctionError ("\"wallets/" ++ name ++ ".json\" wallet file already exists")), [])
    else
      match ensure_watchonly node w with
      | .error e => (.error e, [])
      | .ok _ => (.ok w, [w.to_dict])

/-- `create_psbt`: fails when a PSBT is already present; otherwise allocates
one change address via `address`, asks the node for a funded PSBT paying the
recipient with that change address, deserializes it into the wallet, and
saves. -/
def create_psbt (node : Node) (now : Int) (fuel : Nat) (w : MultisigWallet)
    (recipient : String) (satoshis : Int) : OpResult Unit :=
  match w.psbt with
  | some _ => ⟨.error (.junctionError "PSBT already present"), w, [], []⟩
  | none =>
    let r := addressRec node now fuel w
    match r.result with
    | .error e => ⟨.error e, r.wallet, r.saves, r.imports⟩
    | .ok change_address =>
      match node.walletcreatefundedpsbt recipient satoshis change_address with
      | .error e => ⟨.error e, r.wallet, r.saves, r.imports⟩
      | .ok raw_psbt =>
        match node.deserializePsbt raw_psbt with
        | .error e => ⟨.error e, r.wallet, r.saves, r.imports⟩
        | .ok p =>
          let w2 := { r.wallet with psbt := some p }
          ⟨.ok (), w2, r.saves ++ [w2.to_dict], r.imports⟩

/-- `remove_psbt`: sets the PSBT to none.  The source method body is exactly
`self.psbt = None`; it never calls `save`. -/
def remove_psbt (w : MultisigWallet) : OpResult Unit :=
  ⟨.ok (), { w with psbt := none }, [], []⟩

/-- `signing_complete`: `self.m == len(self.psbt.inputs[0].partial_sigs)`.
When `psbt` is `None` the attribute access `.inputs` raises; when the input
list is empty the subscript raises. -/
def signing_complete (w : MultisigWallet) : Except JErr Bool :=
  match w.psbt with
  | none => .error .attributeError
  | some p =>
    match p.inputs with
    | [] => .error .indexError
    | i :: _ => .ok (w.m == (i.psigs.length : Int))

/-- The manual fallback loop of `balances`: walk the unspent list once,
adding each amount to the confirmed total when `confirmations > 0` and to
the unconfirmed total otherwise; returns (unconfirmed, confirmed). -/
def balancesFallbackSum (unspent : List Utxo) : Rat × Rat :=
  unspent.foldl
    (fun acc u =>
      if u.confirmations > 0 then (acc.1, acc.2 + u.amount)
      else (acc.1 + u.amount, acc.2))
    (0, 0)

/-- `balances`: try `getbalances` first; on success return the watch-only
pending and trusted totals, or (0, 0) if the response has no watch-only
section.  On any failure fall back to `listunspent(0, 9999999, [], True)`
and sum manually. -/
def balances (node : Node) : Except JErr (Rat × Rat) :=
  match node.getbalances with
  | .ok b =>
    match b.watchonly with
    | some wo => .ok (wo.untrusted_pending, wo.trusted)
    | none => .ok (0, 0)
  | .error _ =>
    match node.listunspent 0 9999999 [] true with
    | .error e => .error e
    | .ok unspent => .ok (balancesFallbackSum unspent)

end MultisigWallet

/-! ### Concrete fixtures used by witnesses and counterexamples -/

/-- A sample signer. -/
def signerA : Signer := ⟨"alice", "00000001", "tpubA", "m/44h/1h/0h"⟩

/-- A second sample signer. -/
def signerB : Signer := ⟨"bob", "00000002", "tpubB", "m/44h/1h/0h"⟩

/-- A ready 2-of-2 wallet whose export range already covers the next
address index. -/
def wReady : MultisigWallet :=
  ⟨"junction", 2, 2, [signerA, signerB], none, 0, 100⟩

/-- A wallet still missing one signer (not ready). -/
def wPartial : MultisigWallet :=
  ⟨"junction", 2, 2, [signerA], none, 0, 0⟩

/-- A ready wallet that has never exported (export_index 0). -/
def wFresh : MultisigWallet :=
  ⟨"junction", 2, 2, [signerA, signerB], none, 0, 0⟩

/-- A PSBT fixture with a single input carrying two partial signatures. -/
def psbtTwoSigs : PSBT := ⟨"deadbeef", [⟨["sig1", "sig2"]⟩]⟩

/-- A ready wallet holding `psbtTwoSigs` as its in-flight PSBT. -/
def wWithPsbt : MultisigWallet :=
  ⟨"junction", 2, 2, [signerA, signerB], some psbtTwoSigs, 1, 100⟩

/-- Unspent outputs with mixed confirmation counts for the balance
fallback. -/
def utxoFixture : List Utxo :=
  [⟨0, (1 : Rat) / 2⟩, ⟨3, 2⟩, ⟨0, 5⟩, ⟨1, 7⟩]

/-- A well-behaved node: every address it reports has its pubkeys already
in sorted order, and `getbalances` succeeds with a watch-only section. -/
def nodeSorted : Node :=
  { listwallets := .ok []
    loadwallet := fun _ => .ok ()
    createwallet := fun _ _ => .ok ()
    getdescriptorinfo := fun d => .ok (d ++ "#checksum")
    deriveaddresses := fun _ r => .ok ["addr" ++ toString r.1, "addr" ++ toString r.2]
    getaddressinfo := fun _ => .ok ⟨true, ["keyA", "keyB"]⟩
    importmulti := fun _ => .ok ()
    walletcreatefundedpsbt := fun _ _ _ => .ok "deadbeef"
    deserializePsbt := fun h => .ok ⟨h, [⟨[]⟩]⟩
    getbalances := .ok ⟨some ⟨3, 20⟩⟩
    listunspent := fun _ _ _ _ => .ok utxoFixture }

/-- A node that reports unsorted pubkeys for the address at index 0 and
sorted pubkeys for every other address: allocation at index 0 must skip
once. -/
def nodeSkip0 : Node :=
  { nodeSorted with
    getaddressinfo := fun a =>
      if a = "addr0" then .ok ⟨true, ["keyB", "keyA"]⟩
      else .ok ⟨true, ["keyA", "keyB"]⟩ }

/-- A node whose `getbalances` raises, forcing the manual fallback over
`utxoFixture`. -/
def nodeNoGetbalances : Node :=
  { nodeSorted with getbalances := .error (.rpcError "Method not found") }

/-- Same signer material as `wPartial` but a different quorum size, to show
the descriptor ignores `n`. -/
def wPartialWideQuorum : MultisigWallet :=
  ⟨"junction", 2, 5, [signerA], none, 0, 0⟩

/-- The set of descriptor indices a node range pair `[a, b]` covers.  Both
endpoints are included: Bitcoin Core treats descriptor ranges inclusively,
which this repository itself relies on in `address`, where
`deriveaddresses(desc, [i, i + 1])[0]` is expected to return the address at
index `i` as the first of the two covered indices. -/
def nodeRangeIndices (r : Int × Int) : Finset Int := Finset.Icc r.1 r.2

/-- The apostrophe character, written by code point to build the hardened
marker the spec format uses. -/
def apostropheChar : String := String.singleton (Char.ofNat 39)

/-- The hardened derivation prefix exactly as the spec format states it,
with apostrophes as hardened markers. -/
def specApostrophePath : String :=
  "/44" ++ apostropheChar ++ "/1" ++ apostropheChar ++ "/0" ++ apostropheChar

/-- The raw descriptor as the spec sentence literally writes it:
`sh(multi(m, [fp/44'/1'/0']xpub/0/*, ...))` with apostrophe hardened
markers, one entry per signer in registration order.  Written from the spec
text, to compare against `rawDescriptor` from the source. -/
def specApostropheDescriptor (w : MultisigWallet) : String :=
  "sh(multi(" ++ toString w.m ++ ","
    ++ String.intercalate ","
        (w.signers.map (fun s => "[" ++ s.fingerprint ++ specApostrophePath ++ "]"
          ++ s.xpub ++ "/0/*"))
    ++ "))"

/-- One signer entry of the descriptor format, with the h hardened markers
the source actually uses. -/
def signerTerm (s : Signer) : String :=
  "[" ++ s.fingerprint ++ "/44h/1h/0h]" ++ s.xpub ++ "/0/*"

/-- Comma-joining of the signer entries in registration order, written as a
direct recursion (independently of the `map` plus `intercalate` shape the
source computation takes). -/
def joinSignerTerms : List Signer → String
  | [] => ""
  | [s] => signerTerm s
  | s :: s2 :: rest => signerTerm s ++ "," ++ joinSignerTerms (s2 :: rest)

/-- The descriptor format with h hardened markers: the amended form of the
spec format sentence. -/
def specHMarkerDescriptor (w : MultisigWallet) : String :=
  "sh(multi(" ++ toString w.m ++ "," ++ joinSignerTerms w.signers ++ "))"

namespace MultisigWallet

/-- Behaviour of `export_watchonly`: on success it advances `export_index`
by exactly `ADDRESS_CHUNK`, saves exactly the final snapshot, and has issued
exactly one import request over the range starting at the old
`export_index`; on failure it leaves the wallet untouched and saves
nothing. -/
theorem export_watchonly_spec (node : Node) (now : Int) (w : MultisigWallet) :
    ((export_watchonly node now w).result = .ok () →
      (export_watchonly node now w).wallet
          = { w with export_index := w.export_index + ADDRESS_CHUNK }
        ∧ (export_watchonly node now w).saves
          = [MultisigWallet.to_dict { w with export_index := w.export_index + ADDRESS_CHUNK }]
        ∧ ∃ desc, descriptor node w = .ok desc
            ∧ (export_watchonly node now w).imports = [importRequest desc now w.export_index])
    ∧ (∀ e, (export_watchonly node now w).result = .error e →
        (export_watchonly node now w).wallet = w ∧ (export_watchonly node now w).saves = []) := by
  unfold export_watchonly
  cases hd : descriptor node w with
  | error e => simp
  | ok desc =>
    cases hi : node.importmulti (importRequest desc now w.export_index) with
    | error e => simp [hi]
    | ok u => simp [hi]

/-- The export trigger step leaves every wallet field except possibly
`export_index` unchanged, and on success `export_index` grows by zero or one
chunk. -/
theorem allocationExportStep_spec (node : Node) (now : Int) (w : MultisigWallet) :
    ((allocationExportStep node now w).result = .ok () →
      (allocationExportStep node now w).wallet = w
        ∨ (allocationExportStep node now w).wallet
            = { w with export_index := w.export_index + ADDRESS_CHUNK })
    ∧ (∀ e, (allocationExportStep node now w).result = .error e →
        (allocationExportStep node now w).wallet = w) := by
  unfold allocationExportStep
  by_cases h : w.address_index > w.export_index
  · simp only [h, if_pos]
    constructor
    · intro hok
      exact Or.inr ((export_watchonly_spec node now w).1 hok).1
    · intro e he
      exact ((export_watchonly_spec node now w).2 e he).1
  · simp [h]

end MultisigWallet

namespace MultisigWallet

/-- Invariants of the recursive address allocator, by induction on the
recursion bound: (1) `export_index` only ever grows by whole chunks;
(2) a successful call advances `address_index` by one per derivation
attempt, that is by `1 + j` where `j` counts the skipped unsorted
candidates, and returns an address whose embedded pubkeys are in sorted
order; (3) a successful call ends by saving the final wallet state. -/
theorem addressRec_invariants (node : Node) (now : Int) :
    ∀ (fuel : Nat) (w : MultisigWallet),
      (∃ k : Nat, (addressRec node now fuel w).wallet.export_index
          = w.export_index + ADDRESS_CHUNK * (k : Int))
      ∧ (∀ addr, (addressRec node now fuel w).result = .ok addr →
          (∃ j : Nat, (addressRec node now fuel w).wallet.address_index
              = w.address_index + 1 + (j : Int))
          ∧ (∃ ai, node.getaddressinfo addr = .ok ai ∧ ai.pubkeys = pysorted ai.pubkeys)
          ∧ (addressRec node now fuel w).saves.getLast?
              = some (addressRec node now fuel w).wallet.to_dict) := by
  intro fuel
  induction fuel with
  | zero =>
    intro w
    refine ⟨⟨0, by simp [addressRec]⟩, ?_⟩
    intro addr h
    simp [addressRec] at h
  | succ fuel ih =>
    intro w
    by_cases hr : w.ready
    · simp only [addressRec, hr, Bool.not_true, Bool.false_eq_true, if_false]
      rcases hpre : (allocationExportStep node now w).result with e | u
      · -- the export trigger step raised
        have hw := ((allocationExportStep_spec node now w).2 e hpre).symm
        simp only [hpre]
        refine ⟨⟨0, by rw [← hw]; simp⟩, ?_⟩
        intro addr h
        simp at h
      · -- the export trigger step succeeded
        obtain ⟨w1, hW, hidx, k0, hexp⟩ :
            ∃ w1, (allocationExportStep node now w).wallet = w1
              ∧ w1.address_index = w.address_index
              ∧ ∃ k0 : Nat, w1.export_index = w.export_index + ADDRESS_CHUNK * (k0 : Int) := by
          rcases (allocationExportStep_spec node now w).1 hpre with hW | hW
          · exact ⟨w, hW, rfl, 0, by simp⟩
          · exact ⟨_, hW, rfl, 1, by simp⟩
        simp only [hpre, hW]
        rcases hd : descriptor node w1 with e | desc
        · simp only [hd]
          refine ⟨⟨k0, hexp⟩, ?_⟩
          intro addr h
          simp at h
        · simp only [hd]
          rcases hda : node.deriveaddresses desc (w1.address_index, w1.address_index + 1)
            with e | addrs
          · simp only [hda]
            refine ⟨⟨k0, hexp⟩, ?_⟩
            intro addr h
            simp at h
          · simp only [hda]
            rcases hh : addrs.head? with _ | addr0
            · simp only [hh]
              refine ⟨⟨k0, hexp⟩, ?_⟩
              intro addr h
              simp at h
            · simp only [hh]
              rcases hai : node.getaddressinfo addr0 with e | ai
              · simp only [hai]
                refine ⟨⟨k0, hexp⟩, ?_⟩
                intro addr h
                simp at h
              · simp only [hai]
                cases hwo : ai.iswatchonly with
                | false =>
                  refine ⟨⟨k0, hexp⟩, ?_⟩
                  intro addr h
                  simp at h
                | true =>
                  rw [if_neg (by decide : ¬ (((true : Bool) != true) = true))]
                  by_cases hs : ai.pubkeys = pysorted ai.pubkeys
                  · -- sorted: success, no recursion
                    rw [if_neg (not_not_intro hs)]
                    constructor
                    · exact ⟨k0, hexp⟩
                    · intro addr h
                      have haddr : addr0 = addr := Except.ok.inj h
                      subst haddr
                      refine ⟨⟨0, ?_⟩, ⟨ai, hai, hs⟩, ?_⟩
                      · show ({ w1 with address_index := w1.address_index + 1 }
                            : MultisigWallet).address_index = w.address_index + 1 + ((0 : Nat) : Int)
                        rw [show ({ w1 with address_index := w1.address_index + 1 }
                          : MultisigWallet).address_index = w1.address_index + 1 from rfl, hidx]
                        push_cast
                        ring
                      · show ((allocationExportStep node now w).saves
                            ++ [MultisigWallet.to_dict { w1 with address_index := w1.address_index + 1 }]).getLast?
                            = some (MultisigWallet.to_dict { w1 with address_index := w1.address_index + 1 })
                        exact List.getLast?_concat _
                  · -- unsorted: recurse
                    rw [if_pos hs]
                    obtain ⟨⟨k1, hk1⟩, hok⟩ :=
                      ih { w1 with address_index := w1.address_index + 1 }
                    constructor
                    · refine ⟨k0 + k1, ?_⟩
                      show (addressRec node now fuel
                          { w1 with address_index := w1.address_index + 1 }).wallet.export_index
                          = w.export_index + ADDRESS_CHUNK * (((k0 + k1 : Nat)) : Int)
                      rw [hk1]
                      rw [show ({ w1 with address_index := w1.address_index + 1 }
                        : MultisigWallet).export_index = w1.export_index from rfl, hexp]
                      push_cast
                      ring
                    · intro addr h
                      have h' : (addressRec node now fuel
                          { w1 with address_index := w1.address_index + 1 }).result
                            = .ok addr := h
                      obtain ⟨⟨j, hj⟩, hsort, hlast⟩ := hok addr h'
                      refine ⟨⟨j + 1, ?_⟩, hsort, ?_⟩
                      · show (addressRec node now fuel
                            { w1 with address_index := w1.address_index + 1 }).wallet.address_index
                            = w.address_index + 1 + (((j + 1 : Nat)) : Int)
                        rw [hj]
                        rw [show ({ w1 with address_index := w1.address_index + 1 }
                          : MultisigWallet).address_index = w1.address_index + 1 from rfl, hidx]
                        push_cast
                        ring
                      · show ((allocationExportStep node now w).saves
                            ++ (addressRec node now fuel
                              { w1 with address_index := w1.address_index + 1 }).saves).getLast?
                            = some ((addressRec node now fuel
                              { w1 with address_index := w1.address_index + 1 }).wallet.to_dict)
                        rw [List.getLast?_append, hlast]
                        rfl
    · refine ⟨⟨0, by simp [addressRec, hr]⟩, ?_⟩
      intro addr h
      simp [addressRec, hr] at h

end MultisigWallet

namespace MultisigWallet

/-- The tail of a separator join: everything after the first element. -/
def joinTail (s : String) : List String → String
  | [] => ""
  | a :: as => s ++ a ++ joinTail s as

theorem intercalate_go_spec (s : String) :
    ∀ (l : List String) (acc : String), String.intercalate.go acc s l = acc ++ joinTail s l := by
  intro l
  induction l with
  | nil =>
    intro acc
    rw [String.intercalate.go.eq_def]
    simp [joinTail]
  | cons a as ih =>
    intro acc
    rw [String.intercalate.go.eq_def]
    simp only []
    rw [ih (acc ++ s ++ a)]
    simp [joinTail, String.append_assoc]

theorem intercalate_cons_cons (a b : String) (l : List String) :
    String.intercalate "," (a :: b :: l) = a ++ "," ++ String.intercalate "," (b :: l) := by
  show String.intercalate.go a "," (b :: l) = a ++ "," ++ String.intercalate.go b "," l
  rw [String.intercalate.go.eq_def]
  simp only []
  rw [intercalate_go_spec, intercalate_go_spec]
  simp [String.append_assoc]

theorem signer_entry_eq (s : Signer) :
    "[" ++ s.fingerprint ++ pathHardened ++ "]" ++ s.xpub ++ pathReceive = signerTerm s := by
  simp [signerTerm, pathHardened, pathReceive, String.append_assoc]

theorem intercalate_signer_entries (l : List Signer) :
    String.intercalate ","
        (l.map (fun s => "[" ++ s.fingerprint ++ pathHardened ++ "]" ++ s.xpub ++ pathReceive))
      = joinSignerTerms l := by
  induction l with
  | nil => rfl
  | cons s rest ih =>
    cases rest with
    | nil =>
      show String.intercalate.go ("[" ++ s.fingerprint ++ pathHardened ++ "]" ++ s.xpub ++ pathReceive) "," [] = _
      rw [String.intercalate.go.eq_def]
      simp only [joinSignerTerms]
      exact signer_entry_eq s
    | cons s2 rest2 =>
      simp only [List.map_cons] at ih ⊢
      rw [intercalate_cons_cons, ih, signer_entry_eq]
      rfl

/-- C7 (amended): for every wallet, the raw descriptor string built before
the checksum step is exactly `sh(multi(m, [fp/44h/1h/0h]xpub/0/*, ...))`,
one entry per signer joined in registration order, with the hardened
derivation prefix written `/44h/1h/0h` (the source uses h as the hardened
marker, not an apostrophe) and the receive suffix `/0/*`. -/
theorem c7_raw_descriptor_format (w : MultisigWallet) :
    rawDescriptor w = specHMarkerDescriptor w := by
  show "sh(multi(" ++ toString w.m ++ ","
      ++ String.intercalate ","
          (w.signers.map (fun s => "[" ++ s.fingerprint ++ pathHardened ++ "]"
            ++ s.xpub ++ pathReceive))
      ++ "))" = specHMarkerDescriptor w
  rw [intercalate_signer_entries]
  rfl

/-- C7 counterexample: for the fixed 2-of-2 sample wallet, the raw
descriptor the code builds uses the h hardened marker, and is NOT the
string with apostrophe markers the spec sentence writes. -/
theorem c7_counterexample :
    wReady.ready = true
    ∧ rawDescriptor wReady
        = "sh(multi(2,[00000001/44h/1h/0h]tpubA/0/*,[00000002/44h/1h/0h]tpubB/0/*))"
    ∧ rawDescriptor wReady ≠ specApostropheDescriptor wReady := by
  refine ⟨by decide, by decide, by decide⟩

/-- C5 (amended): `descriptor()` performs no readiness validation: its
result depends only on `m` and the signer list, so a wallet that is not
ready still gets a descriptor built from the signers registered so far. -/
theorem c5_descriptor_unguarded (node : Node) (w1 w2 : MultisigWallet)
    (hm : w1.m = w2.m) (hs : w1.signers = w2.signers) :
    descriptor node w1 = descriptor node w2 := by
  unfold descriptor rawDescriptor
  rw [hm, hs]

/-- C5 witness: two wallets differing in quorum size n (hence in
readiness) get the same descriptor. -/
theorem c5_descriptor_unguarded_witness :
    descriptor nodeSorted wPartial = descriptor nodeSorted wPartialWideQuorum :=
  c5_descriptor_unguarded nodeSorted wPartial wPartialWideQuorum (by decide) (by decide)

/-- C5 counterexample: a wallet that is not ready (1 of 2 signers) does
not fail with a domain validation error: `descriptor()` happily builds and
returns the checksummed descriptor over the single registered signer. -/
theorem c5_counterexample :
    wPartial.ready = false
    ∧ descriptor nodeSorted wPartial
        = .ok "sh(multi(2,[00000001/44h/1h/0h]tpubA/0/*))#checksum" := by
  refine ⟨by decide, by decide⟩

/-- C10: calling `signing_complete` with no in-flight PSBT does not return
a boolean: the attribute access on the missing PSBT raises, so the
operation has the implicit precondition that a PSBT exists. -/
theorem c10_signing_complete_requires_psbt (w : MultisigWallet) (h : w.psbt = none) :
    signing_complete w = .error .attributeError
    ∧ ∀ b : Bool, signing_complete w ≠ .ok b := by
  constructor
  · unfold signing_complete
    rw [h]
  · intro b hb
    unfold signing_complete at hb
    rw [h] at hb
    cases hb

/-- C10 witness: the ready fixture wallet holds no PSBT and
`signing_complete` raises on it. -/
theorem c10_signing_complete_requires_psbt_witness :
    signing_complete wReady = .error .attributeError :=
  (c10_signing_complete_requires_psbt wReady rfl).1

/-- C8: for a wallet whose PSBT is present and has a first input,
`signing_complete` returns a boolean which is true exactly when the number
of partial signatures on that first input equals m. -/
theorem c8_signing_complete_iff (w : MultisigWallet) (p : PSBT) (i : PSBTInput)
    (rest : List PSBTInput) (hp : w.psbt = some p) (hi : p.inputs = i :: rest) :
    signing_complete w = .ok (w.m == (i.psigs.length : Int))
    ∧ (signing_complete w = .ok true ↔ (i.psigs.length : Int) = w.m) := by
  have hsc : signing_complete w = .ok (w.m == (i.psigs.length : Int)) := by
    simp only [signing_complete, hp, hi]
  refine ⟨hsc, ?_⟩
  rw [hsc]
  constructor
  · intro h
    have hb : (w.m == (i.psigs.length : Int)) = true := by
      have := Except.ok.inj h
      exact this
    exact (beq_iff_eq.mp hb).symm
  · intro h
    rw [show (w.m == (i.psigs.length : Int)) = true from beq_iff_eq.mpr h.symm]

/-- C8 witness: on the fixture wallet with m = 2 and two partial
signatures on the first input, signing is complete. -/
theorem c8_signing_complete_iff_witness :
    signing_complete wWithPsbt = .ok true :=
  (c8_signing_complete_iff wWithPsbt psbtTwoSigs ⟨["sig1", "sig2"]⟩ [] rfl rfl).2.mpr (by decide)

end MultisigWallet

namespace MultisigWallet

/-- C6: given no wallet file of that name exists and the watch-only
bootstrap succeeds for the node, creation succeeds exactly when
1 <= m <= n <= 5; when a bound is violated the result is a domain
validation error whose message names the violated bound, and no wallet
snapshot is written. -/
theorem c6_create_bounds (node : Node) (name : String) (m n : Int)
    (hwo : ensure_watchonly node
      { name := name, m := m, n := n, signers := [], psbt := none
        address_index := 0, export_index := 0 } = .ok ()) :
    ((create node name m n false).1.isOk = true ↔ (1 ≤ m ∧ m ≤ n ∧ n ≤ 5))
    ∧ (m > n →
        create node name m n false = (.error (.junctionError (msgMGtN m n)), []))
    ∧ (m ≤ n → m < 1 →
        create node name m n false = (.error (.junctionError (msgMLt1 m)), []))
    ∧ (m ≤ n → 1 ≤ m → n > 5 →
        create node name m n false = (.error (.junctionError (msgNGt5 n)), [])) := by
  unfold create
  by_cases h1 : m > n
  · rw [if_pos h1]
    refine ⟨?_, fun _ => rfl, fun hmn _ => absurd h1 (not_lt.mpr hmn), fun hmn _ _ => absurd h1 (not_lt.mpr hmn)⟩
    simp only [Except.isOk, Except.toBool]
    constructor
    · intro h; cases h
    · intro ⟨ha, hb, _⟩
      omega
  · rw [if_neg h1]
    by_cases h2 : m < 1
    · rw [if_pos h2]
      refine ⟨?_, fun hgt => absurd hgt h1, fun _ _ => rfl, fun _ hm _ => by omega⟩
      simp only [Except.isOk, Except.toBool]
      constructor
      · intro h; cases h
      · intro ⟨ha, _, _⟩
        omega
    · rw [if_neg h2]
      by_cases h3 : n > 5
      · rw [if_pos h3]
        refine ⟨?_, fun hgt => absurd hgt h1, fun _ hlt => absurd hlt h2, fun _ _ _ => rfl⟩
        simp only [Except.isOk, Except.toBool]
        constructor
        · intro h; cases h
        · intro ⟨_, _, hc⟩
          omega
      · rw [if_neg h3]
        rw [if_neg (by exact Bool.false_ne_true)]
        rw [hwo]
        refine ⟨?_, fun hgt => absurd hgt h1, fun _ hlt => absurd hlt h2, fun _ _ hgt => absurd hgt h3⟩
        simp only [Except.isOk, Except.toBool]
        constructor
        · intro _
          omega
        · intro _
          trivial

/-- C6 witness: a 2-of-3 wallet is created successfully against a healthy
node. -/
theorem c6_create_bounds_witness :
    (create nodeSorted "junction" 2 3 false).1.isOk = true :=
  (c6_create_bounds nodeSorted "junction" 2 3 (by decide)).1.mpr (by decide)

end MultisigWallet

namespace MultisigWallet

theorem balancesFallback_fold (l : List Utxo) :
    ∀ a b : Rat,
      l.foldl (fun acc u => if u.confirmations > 0 then (acc.1, acc.2 + u.amount)
          else (acc.1 + u.amount, acc.2)) (a, b)
        = (a + ((l.filter (fun u => !(decide (u.confirmations > 0)))).map Utxo.amount).sum,
           b + ((l.filter (fun u => decide (u.confirmations > 0))).map Utxo.amount).sum) := by
  induction l with
  | nil =>
    intro a b
    simp
  | cons u l ih =>
    intro a b
    by_cases h : u.confirmations > 0
    · rw [List.foldl_cons, if_pos h, ih]
      simp [List.filter_cons, h, add_assoc]
    · rw [List.foldl_cons, if_neg h, ih]
      simp [List.filter_cons, h, add_assoc]

/-- C9: when the aggregate `getbalances` query fails, `balances` enumerates
the unspent outputs (with minimum confirmations 0, so every reported
confirmation count is nonnegative, which the hypothesis records) and sums
them: outputs with exactly zero confirmations accrue to the unconfirmed
total, every output with a nonzero confirmation count accrues to the
confirmed total, and the result is the (unconfirmed, confirmed) pair. -/
theorem c9_balances_fallback (node : Node) (e : JErr) (us : List Utxo)
    (hgb : node.getbalances = .error e)
    (hlu : node.listunspent 0 9999999 [] true = .ok us)
    (hnn : ∀ u ∈ us, 0 ≤ u.confirmations) :
    balances node = .ok
      (((us.filter (fun u => u.confirmations == 0)).map Utxo.amount).sum,
       ((us.filter (fun u => u.confirmations != 0)).map Utxo.amount).sum) := by
  have hf1 : us.filter (fun u => !(decide (u.confirmations > 0)))
      = us.filter (fun u => u.confirmations == 0) := by
    refine List.filter_congr ?_
    intro u hu
    have h0 := hnn u hu
    by_cases hc : u.confirmations = 0
    · simp [hc]
    · have hpos : 0 < u.confirmations := lt_of_le_of_ne h0 (Ne.symm hc)
      simp [hc, hpos]
  have hf2 : us.filter (fun u => decide (u.confirmations > 0))
      = us.filter (fun u => u.confirmations != 0) := by
    refine List.filter_congr ?_
    intro u hu
    have h0 := hnn u hu
    by_cases hc : u.confirmations = 0
    · simp [hc]
    · have hpos : 0 < u.confirmations := lt_of_le_of_ne h0 (Ne.symm hc)
      simp [hc, hpos]
  simp only [balances, hgb, hlu]
  unfold balancesFallbackSum
  rw [balancesFallback_fold, hf1, hf2]
  simp

/-- C9 witness: the fallback on the fixture utxo set sums the two
zero-confirmation outputs to the unconfirmed total and the others to the
confirmed total. -/
theorem c9_balances_fallback_witness :
    balances nodeNoGetbalances = .ok
      (((utxoFixture.filter (fun u => u.confirmations == 0)).map Utxo.amount).sum,
       ((utxoFixture.filter (fun u => u.confirmations != 0)).map Utxo.amount).sum) :=
  c9_balances_fallback nodeNoGetbalances (.rpcError "Method not found") utxoFixture
    rfl rfl (by decide)

end MultisigWallet

namespace MultisigWallet

/-- C1 (amended): the index is incremented before the sorted-order check,
so each unsorted candidate is skipped by advancing one index: a successful
`address()` call advances `address_index` by exactly `1 + j`, where `j` is
the number of unsorted candidates skipped, and the returned address always
has its embedded pubkeys in sorted order. -/
theorem c1_address_index_per_attempt (node : Node) (now : Int) (fuel : Nat)
    (w : MultisigWallet) (addr : String)
    (h : (addressRec node now fuel w).result = .ok addr) :
    (∃ j : Nat, (addressRec node now fuel w).wallet.address_index
        = w.address_index + 1 + (j : Int))
    ∧ (∃ ai, node.getaddressinfo addr = .ok ai ∧ ai.pubkeys = pysorted ai.pubkeys) := by
  obtain ⟨hj, hsort, _⟩ := ((addressRec_invariants node now fuel w).2 addr h)
  exact ⟨hj, hsort⟩

/-- C1 witness: a successful allocation against the all-sorted node. -/
theorem c1_address_index_per_attempt_witness :
    (∃ j : Nat, (addressRec nodeSorted 0 10 wReady).wallet.address_index
        = wReady.address_index + 1 + (j : Int))
    ∧ (∃ ai, nodeSorted.getaddressinfo "addr0" = .ok ai
        ∧ ai.pubkeys = pysorted ai.pubkeys) :=
  c1_address_index_per_attempt nodeSorted 0 10 wReady "addr0" (by rfl)

/-- C1 counterexample: against a node whose address at index 0 has
unsorted pubkeys, one successful `address()` call advances `address_index`
by 2 (the unsorted candidate is skipped by advancing the index, not by
retrying at the same index), refuting the claimed advance of exactly 1. -/
theorem c1_counterexample :
    (addressRec nodeSkip0 0 10 wReady).result = .ok "addr1"
    ∧ (addressRec nodeSkip0 0 10 wReady).wallet.address_index = wReady.address_index + 2
    ∧ (addressRec nodeSkip0 0 10 wReady).wallet.address_index ≠ wReady.address_index + 1 := by
  refine ⟨by decide, by decide, by decide⟩

/-- C3 (amended): each export cycle passes to the import call the range
pair `(export_index, export_index + 100)`; under the node's inclusive
range convention (the same convention `address` relies on when it takes
element 0 of `deriveaddresses(desc, [i, i+1])`) that registers 101
indices, including both `export_index` and `export_index + 100`, so
consecutive chunks overlap by one index. -/
theorem c3_import_range (node : Node) (now : Int) (w : MultisigWallet)
    (h : (export_watchonly node now w).result = .ok ()) :
    (∃ desc, descriptor node w = .ok desc
      ∧ (export_watchonly node now w).imports = [importRequest desc now w.export_index])
    ∧ (∀ desc, (importRequest desc now w.export_index).range
        = (w.export_index, w.export_index + 100))
    ∧ (nodeRangeIndices (w.export_index, w.export_index + 100)).card = 101
    ∧ w.export_index + 100 ∈ nodeRangeIndices (w.export_index, w.export_index + 100)
    ∧ w.export_index ∈ nodeRangeIndices (w.export_index, w.export_index + 100) := by
  obtain ⟨-, -, hdesc⟩ := (export_watchonly_spec node now w).1 h
  refine ⟨hdesc, fun desc => rfl, ?_, ?_, ?_⟩
  · rw [nodeRangeIndices, Int.card_Icc]
    omega
  · rw [nodeRangeIndices, Finset.mem_Icc]
    omega
  · rw [nodeRangeIndices, Finset.mem_Icc]
    omega

/-- C3 witness: a concrete export over the fresh wallet registers the
range pair (0, 100). -/
theorem c3_import_range_witness :
    ∃ desc, descriptor nodeSorted wFresh = .ok desc
      ∧ (export_watchonly nodeSorted 0 wFresh).imports = [importRequest desc 0 wFresh.export_index] :=
  (c3_import_range nodeSorted 0 wFresh (by rfl)).1

/-- C3 counterexample: at export_index 0 the export cycle passes the range
pair (0, 100); under the node's inclusive range convention this covers 101
indices, not 100, and does include index export_index + 100 = 100. -/
theorem c3_counterexample :
    (export_watchonly nodeSorted 0 wFresh).result = .ok ()
    ∧ (export_watchonly nodeSorted 0 wFresh).imports.map ImportRequest.range = [(0, 100)]
    ∧ (nodeRangeIndices (0, 100)).card = 101
    ∧ (100 : Int) ∈ nodeRangeIndices (0, 100) := by
  refine ⟨by rfl, by rfl, ?_, ?_⟩
  · rw [nodeRangeIndices, Int.card_Icc]
    omega
  · rw [nodeRangeIndices, Finset.mem_Icc]
    omega

end MultisigWallet

namespace MultisigWallet

/-- C4 (amended): every state-mutating operation except `remove_psbt`
persists the full snapshot after the mutation — on success the last write
is exactly the final in-memory state.  `remove_psbt` (discard) is the
exception: it clears the PSBT in memory and writes nothing. -/
theorem c4_saves_after_mutation (node : Node) (now : Int) :
    (∀ (fuel : Nat) (w : MultisigWallet) (addr : String),
        (addressRec node now fuel w).result = .ok addr →
        (addressRec node now fuel w).saves.getLast?
          = some (addressRec node now fuel w).wallet.to_dict)
    ∧ (∀ w : MultisigWallet, (export_watchonly node now w).result = .ok () →
        (export_watchonly node now w).saves
          = [(export_watchonly node now w).wallet.to_dict])
    ∧ (∀ (w : MultisigWallet) (nm fp xp dp : String),
        (add_signer node now w nm fp xp dp).result = .ok () →
        (add_signer node now w nm fp xp dp).saves.getLast?
          = some (add_signer node now w nm fp xp dp).wallet.to_dict)
    ∧ (∀ (fuel : Nat) (w : MultisigWallet) (recipient : String) (satoshis : Int),
        (create_psbt node now fuel w recipient satoshis).result = .ok () →
        (create_psbt node now fuel w recipient satoshis).saves.getLast?
          = some (create_psbt node now fuel w recipient satoshis).wallet.to_dict)
    ∧ (∀ (nm : String) (m n : Int) (w' : MultisigWallet),
        (create node nm m n false).1 = .ok w' →
        (create node nm m n false).2 = [w'.to_dict])
    ∧ (∀ w : MultisigWallet,
        remove_psbt w = ⟨.ok (), { w with psbt := none }, [], []⟩) := by
  refine ⟨?_, ?_, ?_, ?_, ?_, fun w => rfl⟩
  · intro fuel w addr h
    exact ((addressRec_invariants node now fuel w).2 addr h).2.2
  · intro w h
    obtain ⟨hw, hs, -⟩ := (export_watchonly_spec node now w).1 h
    rw [hs, hw]
  · intro w nm fp xp dp h
    by_cases hR : w.ready = true
    · simp [add_signer, hR] at h
    · by_cases hN : nm ∈ w.signers.map Signer.name
      · simp [add_signer, hR, hN] at h
      · by_cases hF : fp ∈ w.signers.map Signer.fingerprint
        · simp [add_signer, hR, hN, hF] at h
        · by_cases hr1 : ({ w with signers := w.signers ++ [⟨nm, fp, xp, dp⟩] }
              : MultisigWallet).ready = true
          · rcases hexp : (export_watchonly node now
                { w with signers := w.signers ++ [⟨nm, fp, xp, dp⟩] }).result with e | u
            · simp [add_signer, hR, hN, hF, hr1, hexp] at h
            · simp [add_signer, hR, hN, hF, hr1, hexp, List.getLast?_concat]
          · simp [add_signer, hR, hN, hF, hr1, List.getLast?_concat]
  · intro fuel w recipient satoshis h
    rcases hp : w.psbt with _ | p
    · rcases ha : (addressRec node now fuel w).result with e | addr
      · simp [create_psbt, hp, ha] at h
      · rcases hcf : node.walletcreatefundedpsbt recipient satoshis addr with e | raw
        · simp [create_psbt, hp, ha, hcf] at h
        · rcases hds : node.deserializePsbt raw with e | p
          · simp [create_psbt, hp, ha, hcf, hds] at h
          · simp [create_psbt, hp, ha, hcf, hds, List.getLast?_concat]
    · simp [create_psbt, hp] at h
  · intro nm m n w' h
    by_cases h1 : m > n
    · simp [create, h1] at h
    · by_cases h2 : m < 1
      · simp [create, h1, h2] at h
      · by_cases h3 : n > 5
        · simp [create, h1, h2, h3] at h
        · rcases hwo : ensure_watchonly node
              { name := nm, m := m, n := n, signers := [], psbt := none
                address_index := 0, export_index := 0 } with e | u
          · simp [create, h1, h2, h3, hwo] at h
          · have hw' : w' = MultisigWallet.mk nm m n [] none 0 0 := by
              have := h
              simp [create, h1, h2, h3, hwo] at this
              exact this.symm
            rw [hw']
            simp [create, h1, h2, h3, hwo]

/-- C4 witness: a successful export cycle writes exactly its final
state. -/
theorem c4_saves_after_mutation_witness :
    (export_watchonly nodeSorted 0 wFresh).saves
      = [(export_watchonly nodeSorted 0 wFresh).wallet.to_dict] :=
  (c4_saves_after_mutation nodeSorted 0).2.1 wFresh (by rfl)

/-- C4 counterexample: `remove_psbt` (discard) mutates the wallet — the
snapshot of the new state differs from the snapshot of the old — but
writes nothing to disk, so the on-disk record (last written when the PSBT
was still present) no longer equals the in-memory state. -/
theorem c4_counterexample :
    (remove_psbt wWithPsbt).saves = []
    ∧ (remove_psbt wWithPsbt).wallet.to_dict ≠ wWithPsbt.to_dict := by
  refine ⟨rfl, by decide⟩

end MultisigWallet

namespace MultisigWallet

/-- C2: the chunk constant is 100; a completed export cycle advances
`export_index` by exactly 100 and a failed one leaves it unchanged; during
address allocation the export cycle is run exactly when
`address_index > export_index` at check time; and in every operation
`export_index` only ever moves by whole 100-chunks (zero chunks for
discard). -/
theorem c2_export_chunking (node : Node) (now : Int) (w : MultisigWallet) :
    ADDRESS_CHUNK = 100
    ∧ ((export_watchonly node now w).result = .ok () →
        (export_watchonly node now w).wallet.export_index = w.export_index + 100)
    ∧ (∀ e, (export_watchonly node now w).result = .error e →
        (export_watchonly node now w).wallet.export_index = w.export_index)
    ∧ (w.address_index > w.export_index →
        allocationExportStep node now w = export_watchonly node now w)
    ∧ (w.address_index ≤ w.export_index →
        allocationExportStep node now w = ⟨.ok (), w, [], []⟩)
    ∧ (∀ fuel : Nat, ∃ k : Nat, (addressRec node now fuel w).wallet.export_index
        = w.export_index + 100 * (k : Int))
    ∧ (∀ nm fp xp dp : String, ∃ k : Nat,
        (add_signer node now w nm fp xp dp).wallet.export_index
          = w.export_index + 100 * (k : Int))
    ∧ (∀ (fuel : Nat) (recipient : String) (satoshis : Int), ∃ k : Nat,
        (create_psbt node now fuel w recipient satoshis).wallet.export_index
          = w.export_index + 100 * (k : Int))
    ∧ (remove_psbt w).wallet.export_index = w.export_index := by
  refine ⟨rfl, ?_, ?_, ?_, ?_, ?_, ?_, ?_, rfl⟩
  · intro h
    rw [((export_watchonly_spec node now w).1 h).1]
    rfl
  · intro e h
    rw [((export_watchonly_spec node now w).2 e h).1]
  · intro h
    rw [allocationExportStep, if_pos h]
  · intro h
    rw [allocationExportStep, if_neg (not_lt.mpr h)]
  · intro fuel
    exact (addressRec_invariants node now fuel w).1
  · intro nm fp xp dp
    by_cases hR : w.ready = true
    · exact ⟨0, by simp [add_signer, hR]⟩
    · by_cases hN : nm ∈ w.signers.map Signer.name
      · exact ⟨0, by simp [add_signer, hR, hN]⟩
      · by_cases hF : fp ∈ w.signers.map Signer.fingerprint
        · exact ⟨0, by simp [add_signer, hR, hN, hF]⟩
        · by_cases hr1 : ({ w with signers := w.signers ++ [⟨nm, fp, xp, dp⟩] }
              : MultisigWallet).ready = true
          · rcases hexp : (export_watchonly node now
                { w with signers := w.signers ++ [⟨nm, fp, xp, dp⟩] }).result with e | u
            · refine ⟨0, ?_⟩
              have hu := ((export_watchonly_spec node now
                { w with signers := w.signers ++ [⟨nm, fp, xp, dp⟩] }).2 e hexp).1
              simp [add_signer, hR, hN, hF, hr1, hexp, hu]
            · refine ⟨1, ?_⟩
              have hu := ((export_watchonly_spec node now
                { w with signers := w.signers ++ [⟨nm, fp, xp, dp⟩] }).1 hexp).1
              simp [add_signer, hR, hN, hF, hr1, hexp, hu, ADDRESS_CHUNK]
          · exact ⟨0, by simp [add_signer, hR, hN, hF, hr1]⟩
  · intro fuel recipient satoshis
    rcases hp : w.psbt with _ | p
    · obtain ⟨k, hk⟩ := (addressRec_invariants node now fuel w).1
      rcases ha : (addressRec node now fuel w).result with e | addr
      · exact ⟨k, by simp [create_psbt, hp, ha, hk, ADDRESS_CHUNK]⟩
      · rcases hcf : node.walletcreatefundedpsbt recipient satoshis addr with e | raw
        · exact ⟨k, by simp [create_psbt, hp, ha, hcf, hk, ADDRESS_CHUNK]⟩
        · rcases hds : node.deserializePsbt raw with e | p
          · exact ⟨k, by simp [create_psbt, hp, ha, hcf, hds, hk, ADDRESS_CHUNK]⟩
          · exact ⟨k, by simp [create_psbt, hp, ha, hcf, hds, hk, ADDRESS_CHUNK]⟩
    · exact ⟨0, by simp [create_psbt, hp]⟩

/-- C2 witness: a concrete completed export cycle advances export_index
from 0 to 100. -/
theorem c2_export_chunking_witness :
    (export_watchonly nodeSorted 0 wFresh).wallet.export_index
      = wFresh.export_index + 100 :=
  (c2_export_chunking nodeSorted 0 wFresh).2.1 (by rfl)

end MultisigWallet
